import Mathlib

/-!
# Verification of the finance ledger data service

Shallow embedding of the ledger store (`financeService`): the persisted
document model (categories and entries), JSON-level persistence through a
key-value settings store, load-time normalization, and the validated CRUD
operations.  JavaScript numbers are modelled as an inductive `JSNum`
(NaN, the two infinities, and finite values as rationals); the serialized
store is modelled at the parsed-JSON level (`RawStore`), since
`JSON.parse ∘ JSON.stringify` is injective on JSON texts and the only
value-level wrinkle — non-finite numbers serializing to `null` — is
captured by the encoder.  `crypto.randomUUID` is modelled by a counter
threaded through the store state.
-/

/-- A JavaScript number: NaN, ±Infinity, or a finite value (exact rational). -/
inductive JSNum where
  | nan
  | inf
  | negInf
  | fin (q : ℚ)
deriving DecidableEq, Repr

/-- Models `Number.isFinite`. -/
def JSNum.isFinite : JSNum → Bool
  | .fin _ => true
  | _ => false

/-- Models the JavaScript comparison `x <= 0` (false on NaN). -/
def JSNum.leZero : JSNum → Bool
  | .nan => false
  | .inf => false
  | .negInf => true
  | .fin q => q ≤ 0

/-- Type `CategoryType` from the source: `"income" | "expense"`. -/
inductive CategoryType where
  | income
  | expense
deriving DecidableEq, Repr

/-- The string form of a category type, as it appears in the JSON document. -/
def CategoryType.toStr : CategoryType → String
  | .income => "income"
  | .expense => "expense"

/-- Structure `Category` from the source. -/
structure Category where
  id : String
  name : String
  type : CategoryType
deriving DecidableEq, Repr

/-- Structure `Entry` from the source.  `note` is `Option String` because persisted
entries may lack the field (normalization never checks it); `none` models the
absent/`undefined` note. -/
structure Entry where
  id : String
  type : CategoryType
  categoryId : String
  amount : JSNum
  date : String
  note : Option String
deriving DecidableEq, Repr

/-- Structure `FinanceData` from the source: the whole persisted document. -/
structure FinanceData where
  categories : List Category
  entries : List Entry
deriving DecidableEq, Repr

/-- Shape `Omit<Entry, "id">`: the input to `addEntry`/`updateEntry`.  `note` may be
absent (`undefined`), hence `Option String`. -/
structure EntryInput where
  type : CategoryType
  categoryId : String
  amount : JSNum
  date : String
  note : Option String
deriving DecidableEq, Repr

/-- A parsed JSON value (the result of `JSON.parse`, or an in-memory value
handed to `JSON.stringify`). -/
inductive JValue where
  | null
  | bool (b : Bool)
  | num (x : JSNum)
  | str (s : String)
  | arr (xs : List JValue)
  | obj (fields : List (String × JValue))

/-- JavaScript property lookup on an object literal: the last binding of a
duplicated key wins. -/
def jget (fields : List (String × JValue)) (key : String) : Option JValue :=
  fields.foldl (fun acc p => if p.1 = key then some p.2 else acc) none

/-- The raw persisted string, classified by how `loadFinanceData` can see it:
absent (or empty — `getString(DATA_KEY, "")` returns `""` either way),
non-empty but failing `JSON.parse`, or parsing to a JSON value. -/
inductive RawStore where
  | absent
  | unparseable
  | parsed (v : JValue)

/-- The store state: the persisted raw document plus the id-generation
counter standing in for `crypto.randomUUID`. -/
structure St where
  store : RawStore
  gen : Nat

/-- Drops leading whitespace characters from a character list. -/
def dropLeadingWs : List Char → List Char
  | [] => []
  | c :: cs => if c.isWhitespace then dropLeadingWs cs else c :: cs

/-- Models JavaScript `String.prototype.trim`: strips whitespace from both
ends (structurally recursive, unlike the library trim). -/
def jsTrim (s : String) : String :=
  String.mk ((dropLeadingWs (dropLeadingWs s.data).reverse).reverse)

/-- Function `createId` from the source, with the UUID replaced by the counter value. -/
def createId (pre : String) (n : Nat) : String :=
  pre ++ "_" ++ toString n

/-- Function `buildDefaultCategories` from the source; consumes two fresh ids. -/
def buildDefaultCategories (n : Nat) : List Category × Nat :=
  ([{ id := createId "cat" n, name := "Зарплата", type := .income },
    { id := createId "cat" (n + 1), name := "Еда", type := .expense }], n + 2)

/-- The category filter of `normalizeData`: keeps an item iff it is an object
whose `id` and `name` are strings and whose `type` is `"income"` or
`"expense"` (JavaScript property access on a non-object yields `undefined`,
and `null` fails the truthiness guard). -/
def decodeCategory : JValue → Option Category
  | .obj fs =>
    match jget fs "id", jget fs "name", jget fs "type" with
    | some (.str i), some (.str nm), some (.str "income") =>
        some { id := i, name := nm, type := .income }
    | some (.str i), some (.str nm), some (.str "expense") =>
        some { id := i, name := nm, type := .expense }
    | _, _, _ => none
  | _ => none

/-- The entry filter of `normalizeData`: keeps an item iff `id`, `categoryId`
and `date` are strings, `amount` is a number (`typeof`, so any `JSNum`), and
`type` is `"income"` or `"expense"`.  The `note` field is not checked: a
string note is kept, anything else is the absent note. -/
def decodeEntry : JValue → Option Entry
  | .obj fs =>
    let nt : Option String :=
      match jget fs "note" with
      | some (.str s) => some s
      | _ => none
    match jget fs "id", jget fs "categoryId", jget fs "amount", jget fs "date",
        jget fs "type" with
    | some (.str i), some (.str cid), some (.num a), some (.str d),
        some (.str "income") =>
        some { id := i, type := .income, categoryId := cid, amount := a,
               date := d, note := nt }
    | some (.str i), some (.str cid), some (.num a), some (.str d),
        some (.str "expense") =>
        some { id := i, type := .expense, categoryId := cid, amount := a,
               date := d, note := nt }
    | _, _, _, _, _ => none
  | _ => none

/-- Function `normalizeData` from the source: defensive filtering of both collections,
then backfilling of a default category for each missing type.  The backfill
path calls `buildDefaultCategories`, consuming two ids even if only one
default is pushed. -/
def normalizeData (raw : JValue) (n : Nat) : FinanceData × Nat :=
  let rawCategories : List JValue :=
    match raw with
    | .obj fields =>
      match jget fields "categories" with
      | some (.arr xs) => xs
      | _ => []
    | _ => []
  let rawEntries : List JValue :=
    match raw with
    | .obj fields =>
      match jget fields "entries" with
      | some (.arr xs) => xs
      | _ => []
    | _ => []
  let sanitizedCategories := rawCategories.filterMap decodeCategory
  let sanitizedEntries := rawEntries.filterMap decodeEntry
  let hasIncome := sanitizedCategories.any (fun c => c.type == CategoryType.income)
  let hasExpense := sanitizedCategories.any (fun c => c.type == CategoryType.expense)
  if hasIncome && hasExpense then
    (⟨sanitizedCategories, sanitizedEntries⟩, n)
  else
    let defaults := (buildDefaultCategories n).1
    let withIncome :=
      if hasIncome then sanitizedCategories
      else sanitizedCategories ++
        [(defaults.find? (fun c => c.type == CategoryType.income)).getD
          { id := "", name := "", type := .income }]
    let withExpense :=
      if hasExpense then withIncome
      else withIncome ++
        [(defaults.find? (fun c => c.type == CategoryType.expense)).getD
          { id := "", name := "", type := .expense }]
    (⟨withExpense, sanitizedEntries⟩, n + 2)

/-- What `JSON.stringify` writes for an entry amount: non-finite numbers
serialize as `null`. -/
def encodeAmount (x : JSNum) : JValue :=
  if x.isFinite then .num x else .null

/-- The JSON object `JSON.stringify` writes for a category. -/
def encodeCategory (c : Category) : JValue :=
  .obj [("id", .str c.id), ("name", .str c.name), ("type", .str c.type.toStr)]

/-- The JSON object `JSON.stringify` writes for an entry; an absent
(`undefined`) note is omitted. -/
def encodeEntry (e : Entry) : JValue :=
  .obj ([("id", .str e.id), ("type", .str e.type.toStr),
         ("categoryId", .str e.categoryId), ("amount", encodeAmount e.amount),
         ("date", .str e.date)] ++
        (match e.note with
         | some s => [("note", .str s)]
         | none => []))

/-- The JSON document `JSON.stringify` writes for the whole `FinanceData`. -/
def encodeData (d : FinanceData) : JValue :=
  .obj [("categories", .arr (d.categories.map encodeCategory)),
        ("entries", .arr (d.entries.map encodeEntry))]

/-- Function `saveData` from the source: `setString(DATA_KEY, JSON.stringify(data))`. -/
def saveData (data : FinanceData) (st : St) : St :=
  { store := .parsed (encodeData data), gen := st.gen }

/-- Function `loadFinanceData` from the source: fresh defaults when the raw string is
absent/empty or fails to parse, otherwise parse + normalize; both paths
persist the result before returning it. -/
def loadFinanceData (st : St) : FinanceData × St :=
  match st.store with
  | .absent =>
    let p := buildDefaultCategories st.gen
    let data : FinanceData := ⟨p.1, []⟩
    (data, saveData data { store := st.store, gen := p.2 })
  | .unparseable =>
    let p := buildDefaultCategories st.gen
    let data : FinanceData := ⟨p.1, []⟩
    (data, saveData data { store := st.store, gen := p.2 })
  | .parsed v =>
    let p := normalizeData v st.gen
    (p.1, saveData p.1 { store := st.store, gen := p.2 })

/-- Function `addCategory` from the source. -/
def addCategory (name : String) (ty : CategoryType) (st : St) : FinanceData × St :=
  let r := loadFinanceData st
  let data := r.1
  let trimmed := jsTrim name
  if trimmed = "" then
    (data, r.2)
  else
    let newCategory : Category := { id := createId "cat" r.2.gen, name := trimmed, type := ty }
    let data2 : FinanceData := ⟨data.categories ++ [newCategory], data.entries⟩
    (data2, saveData data2 { store := r.2.store, gen := r.2.gen + 1 })

/-- Function `addEntry` from the source: silent no-op when `categoryId` resolves to no
category; otherwise the new entry (fresh id, note defaulted via `?? ""`) is
`unshift`ed onto the front. -/
def addEntry (input : EntryInput) (st : St) : FinanceData × St :=
  let r := loadFinanceData st
  let data := r.1
  if data.categories.any (fun c => c.id == input.categoryId) then
    let entry : Entry :=
      { id := createId "entry" r.2.gen, type := input.type,
        categoryId := input.categoryId, amount := input.amount,
        date := input.date, note := some (input.note.getD "") }
    let data2 : FinanceData := ⟨data.categories, entry :: data.entries⟩
    (data2, saveData data2 { store := r.2.store, gen := r.2.gen + 1 })
  else
    (data, r.2)

/-- Result shape of the validating operations: `{ data, error? }`. -/
structure OpResult where
  data : FinanceData
  error : Option String
deriving DecidableEq, Repr

/-- Replaces the first element satisfying `p` (the object `Array.find`
returns, mutated in place in the source). -/
def setFirst {α : Type} (p : α → Bool) (f : α → α) : List α → List α
  | [] => []
  | x :: xs => if p x then f x :: xs else x :: setFirst p f xs

/-- Function `updateCategory` from the source: empty-name error first, then not-found,
then the last-of-type guard when the type changes; on success the found
category's name and type are overwritten in place. -/
def updateCategory (id name : String) (ty : CategoryType) (st : St) :
    OpResult × St :=
  let r := loadFinanceData st
  let data := r.1
  let trimmed := jsTrim name
  if trimmed = "" then
    ({ data := data, error := some "Введите название категории." }, r.2)
  else
    match data.categories.find? (fun c => c.id == id) with
    | none => ({ data := data, error := some "Категория не найдена." }, r.2)
    | some category =>
      if category.type != ty &&
          (data.categories.filter (fun c => c.type == category.type)).length ≤ 1 then
        ({ data := data, error := some "Нужна хотя бы одна категория каждого типа." }, r.2)
      else
        let cats2 := setFirst (fun c => c.id == id)
          (fun c => { id := c.id, name := trimmed, type := ty }) data.categories
        let data2 : FinanceData := ⟨cats2, data.entries⟩
        ({ data := data2, error := none }, saveData data2 r.2)

/-- Function `deleteCategory` from the source: not-found, then in-use, then the
last-of-type guard; on success every category with the id is filtered out. -/
def deleteCategory (id : String) (st : St) : OpResult × St :=
  let r := loadFinanceData st
  let data := r.1
  match data.categories.find? (fun c => c.id == id) with
  | none => ({ data := data, error := some "Категория не найдена." }, r.2)
  | some category =>
    if data.entries.any (fun e => e.categoryId == id) then
      ({ data := data, error := some "Категория используется в записях." }, r.2)
    else if (data.categories.filter (fun c => c.type == category.type)).length ≤ 1 then
      ({ data := data, error := some "Нужна хотя бы одна категория каждого типа." }, r.2)
    else
      let data2 : FinanceData :=
        ⟨data.categories.filter (fun c => c.id != id), data.entries⟩
      ({ data := data2, error := none }, saveData data2 r.2)

/-- Function `updateEntry` from the source: not-found, then unresolved category, then
the amount guard; on success every field but `id` of the found entry is
overwritten in place. -/
def updateEntry (id : String) (input : EntryInput) (st : St) : OpResult × St :=
  let r := loadFinanceData st
  let data := r.1
  match data.entries.find? (fun e => e.id == id) with
  | none => ({ data := data, error := some "Запись не найдена." }, r.2)
  | some _ =>
    if !(data.categories.any (fun c => c.id == input.categoryId)) then
      ({ data := data, error := some "Категория не найдена." }, r.2)
    else if !input.amount.isFinite || input.amount.leZero then
      ({ data := data, error := some "Введите сумму больше 0." }, r.2)
    else
      let entries2 := setFirst (fun e => e.id == id)
        (fun e => { id := e.id, type := input.type, categoryId := input.categoryId,
                    amount := input.amount, date := input.date,
                    note := some (input.note.getD "") }) data.entries
      let data2 : FinanceData := ⟨data.categories, entries2⟩
      ({ data := data2, error := none }, saveData data2 r.2)

/-- Function `deleteEntry` from the source: unconditional filter, no error path. -/
def deleteEntry (id : String) (st : St) : FinanceData × St :=
  let r := loadFinanceData st
  let data2 : FinanceData := ⟨r.1.categories, r.1.entries.filter (fun e => e.id != id)⟩
  (data2, saveData data2 r.2)

/-- The document has at least one category of the given type. -/
def hasType (d : FinanceData) (t : CategoryType) : Bool :=
  d.categories.any (fun c => c.type == t)

/-- One public mutation of the store, for claims quantifying over all six. -/
inductive Mutation where
  | mAddCategory (name : String) (ty : CategoryType)
  | mUpdateCategory (id name : String) (ty : CategoryType)
  | mDeleteCategory (id : String)
  | mAddEntry (input : EntryInput)
  | mUpdateEntry (id : String) (input : EntryInput)
  | mDeleteEntry (id : String)

/-- Runs a mutation, forgetting any validation error (every operation returns
its resulting document alongside the updated store). -/
def applyMutation : Mutation → St → FinanceData × St
  | .mAddCategory name ty, st => addCategory name ty st
  | .mUpdateCategory id name ty, st =>
    let r := updateCategory id name ty st
    (r.1.data, r.2)
  | .mDeleteCategory id, st =>
    let r := deleteCategory id st
    (r.1.data, r.2)
  | .mAddEntry input, st => addEntry input st
  | .mUpdateEntry id input, st =>
    let r := updateEntry id input st
    (r.1.data, r.2)
  | .mDeleteEntry id, st => deleteEntry id st

/-! ### Concrete fixtures used by witnesses and counterexamples -/

/-- A well-formed two-category document with one entry against category "a". -/
def docUse : FinanceData :=
  ⟨[{ id := "a", name := "A", type := .income },
    { id := "b", name := "B", type := .expense }],
   [{ id := "e1", type := .income, categoryId := "a", amount := .fin 5,
      date := "2024-01-01", note := some "" }]⟩

/-- Store holding `docUse`. -/
def stUse : St := ⟨.parsed (encodeData docUse), 0⟩

/-- A document with two income categories sharing the id "x": reachable,
since normalization never deduplicates ids of a crafted persisted document. -/
def docDup : FinanceData :=
  ⟨[{ id := "x", name := "A", type := .income },
    { id := "x", name := "B", type := .income },
    { id := "y", name := "C", type := .expense }], []⟩

/-- Store holding `docDup`. -/
def stDup : St := ⟨.parsed (encodeData docDup), 0⟩

/-- A document with two income categories and one expense category, plus an
entry denormalized against category "a". -/
def docDrift : FinanceData :=
  ⟨[{ id := "a", name := "A", type := .income },
    { id := "b", name := "B", type := .income },
    { id := "c", name := "C", type := .expense }],
   [{ id := "e1", type := .income, categoryId := "a", amount := .fin 5,
      date := "2024-01-01", note := some "" }]⟩

/-- Store holding `docDrift`. -/
def stDrift : St := ⟨.parsed (encodeData docDrift), 0⟩

/-- A parseable persisted document with no categories and one well-typed
entry whose `categoryId` resolves to nothing, whose amount is negative, and
which lacks a `note` field. -/
def vLoose : JValue :=
  .obj [("categories", .arr []),
        ("entries", .arr [.obj [("id", .str "e1"), ("type", .str "expense"),
                                ("categoryId", .str "ghost"),
                                ("amount", .num (.fin (-3))),
                                ("date", .str "2024-01-02")]])]

/-- An entry input with an infinite amount. -/
def inpInf : EntryInput := ⟨.income, "cat_0", .inf, "2024-01-01", some ""⟩

/-- An entry input with a negative amount. -/
def inpNeg : EntryInput := ⟨.income, "cat_0", .fin (-5), "2024-01-01", some ""⟩

/-- An entry input whose `categoryId` resolves to no category of the default
document, with the note absent. -/
def inpGhost : EntryInput := ⟨.income, "nope", .fin 1, "2024-01-01", none⟩

/-- An entry input against category "a" with amount zero. -/
def inpBadA : EntryInput := ⟨.income, "a", .fin 0, "2024-01-02", none⟩

/-- A valid entry input against category "b". -/
def inpGoodA : EntryInput := ⟨.expense, "b", .fin 7, "2024-02-03", some "x"⟩

/-! ### Basic lemmas about load and normalization -/

/-- Every branch of `loadFinanceData` persists exactly the returned document. -/
theorem load_store (st : St) :
    ((loadFinanceData st).2).store = .parsed (encodeData (loadFinanceData st).1) := by
  rcases st with ⟨s, n⟩
  cases s <;> simp [loadFinanceData, saveData]

/-- The income default in `buildDefaultCategories` is the first element. -/
theorem getD_find_income (n : Nat) :
    (((buildDefaultCategories n).1.find? (fun c => c.type == CategoryType.income)).getD
      { id := "", name := "", type := .income }).type = CategoryType.income := rfl

/-- The expense default in `buildDefaultCategories` is the second element. -/
theorem getD_find_expense (n : Nat) :
    (((buildDefaultCategories n).1.find? (fun c => c.type == CategoryType.expense)).getD
      { id := "", name := "", type := .expense }).type = CategoryType.expense := rfl

/-- Normalization always leaves at least one category of each type. -/
theorem normalize_hasBoth (v : JValue) (n : Nat) :
    hasType (normalizeData v n).1 .income = true ∧
    hasType (normalizeData v n).1 .expense = true := by
  unfold normalizeData hasType
  cases hI : ((match v with
      | .obj fields =>
        (match jget fields "categories" with
         | some (.arr xs) => xs
         | _ => [])
      | _ => []).filterMap decodeCategory).any
        (fun c => c.type == CategoryType.income) <;>
    cases hE : ((match v with
      | .obj fields =>
        (match jget fields "categories" with
         | some (.arr xs) => xs
         | _ => [])
      | _ => []).filterMap decodeCategory).any
        (fun c => c.type == CategoryType.expense) <;>
    simp [hI, hE, getD_find_income, getD_find_expense]

/-- After any `loadFinanceData`, at least one category of each type exists. -/
theorem load_hasBoth (st : St) :
    hasType (loadFinanceData st).1 .income = true ∧
    hasType (loadFinanceData st).1 .expense = true := by
  rcases st with ⟨s, n⟩
  cases s with
  | absent => simp [loadFinanceData, buildDefaultCategories, hasType]
  | unparseable => simp [loadFinanceData, buildDefaultCategories, hasType]
  | parsed v =>
    have h := normalize_hasBoth v n
    simpa [loadFinanceData, hasType] using h

/-! ### Encode/decode round trip -/

/-- Applying `filterMap` after `map` keeps a list intact when decoding inverts
encoding pointwise. -/
theorem filterMap_map_eq_self {α β : Type} (f : β → Option α) (g : α → β)
    (l : List α) (h : ∀ a ∈ l, f (g a) = some a) : (l.map g).filterMap f = l := by
  induction l with
  | nil => rfl
  | cons a l ih =>
    have ha := h a (List.mem_cons_self a l)
    simp only [List.map_cons, List.filterMap_cons, ha]
    exact congrArg (a :: ·) (ih (fun x hx => h x (List.mem_cons_of_mem a hx)))

/-- The category filter accepts exactly what the encoder wrote. -/
theorem decode_encode_category (c : Category) :
    decodeCategory (encodeCategory c) = some c := by
  rcases c with ⟨i, nm, t⟩
  cases t <;> simp [encodeCategory, decodeCategory, jget, CategoryType.toStr, List.foldl]

/-- The entry filter accepts exactly what the encoder wrote, provided the
amount is finite (a non-finite amount serializes to `null` and the record
is dropped). -/
theorem decode_encode_entry (e : Entry) (h : e.amount.isFinite = true) :
    decodeEntry (encodeEntry e) = some e := by
  rcases e with ⟨i, t, cid, a, dt, nt⟩
  cases a with
  | fin q =>
    cases t <;> cases nt <;>
      simp [encodeEntry, decodeEntry, encodeAmount, JSNum.isFinite,
        CategoryType.toStr, jget, List.foldl]
  | nan => simp [JSNum.isFinite] at h
  | inf => simp [JSNum.isFinite] at h
  | negInf => simp [JSNum.isFinite] at h

/-- Normalizing the serialized form of a well-formed document (both category
types present, all amounts finite) is the identity and consumes no ids. -/
theorem normalize_encode (d : FinanceData) (n : Nat)
    (hI : hasType d .income = true) (hE : hasType d .expense = true)
    (hFin : d.entries.all (fun e => e.amount.isFinite) = true) :
    normalizeData (encodeData d) n = (d, n) := by
  have hc : (d.categories.map encodeCategory).filterMap decodeCategory = d.categories :=
    filterMap_map_eq_self _ _ _ (fun a _ => decode_encode_category a)
  have he : (d.entries.map encodeEntry).filterMap decodeEntry = d.entries :=
    filterMap_map_eq_self _ _ _
      (fun a ha => decode_encode_entry a (by
        have := List.all_eq_true.mp hFin a ha
        simpa using this))
  have hgc : jget [("categories", JValue.arr (d.categories.map encodeCategory)),
      ("entries", JValue.arr (d.entries.map encodeEntry))] "categories"
      = some (JValue.arr (d.categories.map encodeCategory)) := rfl
  have hge : jget [("categories", JValue.arr (d.categories.map encodeCategory)),
      ("entries", JValue.arr (d.entries.map encodeEntry))] "entries"
      = some (JValue.arr (d.entries.map encodeEntry)) := rfl
  unfold normalizeData
  simp only [encodeData, hgc, hge, hc, he]
  unfold hasType at hI hE
  rw [hI, hE]
  rfl

/-- Loading the serialized form of a well-formed document returns it and
leaves the store fixed. -/
theorem load_parsed_encode (d : FinanceData) (g : Nat)
    (hI : hasType d .income = true) (hE : hasType d .expense = true)
    (hFin : d.entries.all (fun e => e.amount.isFinite) = true) :
    loadFinanceData ⟨.parsed (encodeData d), g⟩ = (d, ⟨.parsed (encodeData d), g⟩) := by
  unfold loadFinanceData
  simp only [normalize_encode d g hI hE hFin, saveData]

/-! ### Every operation leaves the store holding its returned document -/

/-- Operation `addCategory` persists exactly the document it returns. -/
theorem addCategory_store (name : String) (ty : CategoryType) (st : St) :
    ((addCategory name ty st).2).store = .parsed (encodeData (addCategory name ty st).1) := by
  unfold addCategory
  by_cases h : jsTrim name = ""
  · simp [h, load_store st]
  · simp [h, saveData]

/-- Operation `addEntry` persists exactly the document it returns. -/
theorem addEntry_store (input : EntryInput) (st : St) :
    ((addEntry input st).2).store = .parsed (encodeData (addEntry input st).1) := by
  unfold addEntry
  cases h : (loadFinanceData st).1.categories.any (fun c => c.id == input.categoryId) <;>
    simp [h, load_store st, saveData]

/-- Operation `updateCategory` persists exactly the document it returns. -/
theorem updateCategory_store (id name : String) (ty : CategoryType) (st : St) :
    ((updateCategory id name ty st).2).store
      = .parsed (encodeData (updateCategory id name ty st).1.data) := by
  unfold updateCategory
  by_cases h1 : jsTrim name = ""
  · simp [h1, load_store st]
  · cases hf : (loadFinanceData st).1.categories.find? (fun c => c.id == id) with
    | none => simp [h1, hf, load_store st]
    | some c =>
      cases hg : (c.type != ty &&
          decide (((loadFinanceData st).1.categories.filter
            (fun x => x.type == c.type)).length ≤ 1)) <;>
        simp [h1, hf, hg, load_store st, saveData]

/-- Operation `deleteCategory` persists exactly the document it returns. -/
theorem deleteCategory_store (id : String) (st : St) :
    ((deleteCategory id st).2).store
      = .parsed (encodeData (deleteCategory id st).1.data) := by
  unfold deleteCategory
  cases hf : (loadFinanceData st).1.categories.find? (fun c => c.id == id) with
  | none => simp [hf, load_store st]
  | some c =>
    cases hu : (loadFinanceData st).1.entries.any (fun e => e.categoryId == id) with
    | true => simp [hf, hu, load_store st]
    | false =>
      by_cases hc : ((loadFinanceData st).1.categories.filter
          (fun x => x.type == c.type)).length ≤ 1 <;>
        simp [hf, hu, hc, load_store st, saveData]

/-- Operation `updateEntry` persists exactly the document it returns. -/
theorem updateEntry_store (id : String) (input : EntryInput) (st : St) :
    ((updateEntry id input st).2).store
      = .parsed (encodeData (updateEntry id input st).1.data) := by
  unfold updateEntry
  cases hf : (loadFinanceData st).1.entries.find? (fun e => e.id == id) with
  | none => simp [hf, load_store st]
  | some e =>
    cases hc : (loadFinanceData st).1.categories.any (fun c => c.id == input.categoryId) with
    | false => simp [hf, hc, load_store st]
    | true =>
      cases ha : (!input.amount.isFinite || input.amount.leZero) <;>
        simp [hf, hc, ha, load_store st, saveData]

/-- Operation `deleteEntry` persists exactly the document it returns. -/
theorem deleteEntry_store (id : String) (st : St) :
    ((deleteEntry id st).2).store = .parsed (encodeData (deleteEntry id st).1) := by
  unfold deleteEntry
  simp [saveData]

/-- Every mutation persists exactly the document it returns. -/
theorem applyMutation_store (m : Mutation) (st : St) :
    ((applyMutation m st).2).store = .parsed (encodeData (applyMutation m st).1) := by
  cases m <;>
    simp [applyMutation, addCategory_store, addEntry_store, updateCategory_store,
      deleteCategory_store, updateEntry_store, deleteEntry_store]

/-! ### Claims -/

/-- Claim C1: for every persisted raw document — absent, unparseable, or
parseable with arbitrary contents — the document returned by load contains at
least one income and at least one expense category, missing types being
backfilled with defaults during normalization. -/
theorem claim_C1 (st : St) :
    hasType (loadFinanceData st).1 .income = true ∧
    hasType (loadFinanceData st).1 .expense = true :=
  load_hasBoth st

/-- Claim C7 counterexample: the round-trip `load`-after-mutation fails as
universally stated.  First, `addEntry` accepts an entry with amount Infinity,
which serializes to `null` and is dropped by the next load.  Second, on a
document with two income categories sharing one id, `deleteCategory` removes
both, and the next load backfills a fresh default instead of returning the
mutation's result. -/
theorem claim_C7_cex :
    (loadFinanceData (applyMutation (.mAddEntry inpInf) ⟨.absent, 0⟩).2).1
      ≠ (applyMutation (.mAddEntry inpInf) ⟨.absent, 0⟩).1 ∧
    (loadFinanceData (applyMutation (.mDeleteCategory "x") stDup).2).1
      ≠ (applyMutation (.mDeleteCategory "x") stDup).1 := by
  constructor <;> decide

/-- Claim C7 (amended): calling load immediately after any mutation returns
exactly the document the mutation returned, provided that document has at
least one category of each type and every entry amount in it is finite (the
counterexample shows both provisos are necessary). -/
theorem claim_C7 (m : Mutation) (st : St)
    (hI : hasType (applyMutation m st).1 .income = true)
    (hE : hasType (applyMutation m st).1 .expense = true)
    (hFin : ((applyMutation m st).1.entries.all (fun e => e.amount.isFinite)) = true) :
    loadFinanceData (applyMutation m st).2
      = ((applyMutation m st).1, (applyMutation m st).2) := by
  have hsplit : (applyMutation m st).2
      = St.mk (.parsed (encodeData (applyMutation m st).1)) ((applyMutation m st).2).gen := by
    rw [← applyMutation_store m st]
  calc loadFinanceData (applyMutation m st).2
      = loadFinanceData (St.mk (.parsed (encodeData (applyMutation m st).1))
          ((applyMutation m st).2).gen) := by rw [← hsplit]
    _ = ((applyMutation m st).1, St.mk (.parsed (encodeData (applyMutation m st).1))
          ((applyMutation m st).2).gen) := load_parsed_encode _ _ hI hE hFin
    _ = ((applyMutation m st).1, (applyMutation m st).2) := by rw [← hsplit]

/-- Witness for claim C7 at a concrete mutation and store. -/
theorem claim_C7_witness :
    loadFinanceData (applyMutation (.mDeleteEntry "z") ⟨.absent, 0⟩).2
      = ((applyMutation (.mDeleteEntry "z") ⟨.absent, 0⟩).1,
         (applyMutation (.mDeleteEntry "z") ⟨.absent, 0⟩).2) :=
  claim_C7 (.mDeleteEntry "z") ⟨.absent, 0⟩ (by decide) (by decide) (by decide)

/-- Claim C8: on an absent (or empty) raw store, and likewise on an
unparseable one, load constructs, persists, and returns a document with
exactly two categories — one income, one expense — and no entries. -/
theorem claim_C8 (n : Nat) :
    ((loadFinanceData ⟨.absent, n⟩).1.categories.length = 2 ∧
     ((loadFinanceData ⟨.absent, n⟩).1.categories.filter
        (fun c => c.type == CategoryType.income)).length = 1 ∧
     ((loadFinanceData ⟨.absent, n⟩).1.categories.filter
        (fun c => c.type == CategoryType.expense)).length = 1 ∧
     (loadFinanceData ⟨.absent, n⟩).1.entries = [] ∧
     ((loadFinanceData ⟨.absent, n⟩).2).store
        = .parsed (encodeData (loadFinanceData ⟨.absent, n⟩).1)) ∧
    ((loadFinanceData ⟨.unparseable, n⟩).1.categories.length = 2 ∧
     ((loadFinanceData ⟨.unparseable, n⟩).1.categories.filter
        (fun c => c.type == CategoryType.income)).length = 1 ∧
     ((loadFinanceData ⟨.unparseable, n⟩).1.categories.filter
        (fun c => c.type == CategoryType.expense)).length = 1 ∧
     (loadFinanceData ⟨.unparseable, n⟩).1.entries = [] ∧
     ((loadFinanceData ⟨.unparseable, n⟩).2).store
        = .parsed (encodeData (loadFinanceData ⟨.unparseable, n⟩).1)) := by
  constructor <;>
    refine ⟨?_, ?_, ?_, ?_, load_store _⟩ <;>
      simp [loadFinanceData, buildDefaultCategories, List.filter,
        show (CategoryType.income == CategoryType.expense) = false from rfl,
        show (CategoryType.expense == CategoryType.income) = false from rfl]

/-- Claim C10: load-time entry filtering checks only field presence and
primitive type — never foreign-key resolution, amount positivity, or the
note field.  The fixture `vLoose` parses to a document whose single entry
survives normalization with a dangling `categoryId`, a negative amount, and
no note. -/
theorem claim_C10 :
    (loadFinanceData ⟨.parsed vLoose, 0⟩).1.entries.length = 1 ∧
    ∀ e ∈ (loadFinanceData ⟨.parsed vLoose, 0⟩).1.entries,
      (∀ c ∈ (loadFinanceData ⟨.parsed vLoose, 0⟩).1.categories, c.id ≠ e.categoryId) ∧
      e.amount.leZero = true ∧ e.note = none := by
  decide

/-- Claim C9: `updateCategory` never touches the entries sequence (so
entries keep their stored type and categoryId across a successful type
change), and on `stDrift` a successful type change leaves an entry whose
denormalized type differs from its category's new type. -/
theorem claim_C9 :
    (∀ (st : St) (id name : String) (ty : CategoryType),
      (updateCategory id name ty st).1.data.entries = (loadFinanceData st).1.entries) ∧
    ((updateCategory "a" "A" .expense stDrift).1.error = none ∧
     ∃ e ∈ (updateCategory "a" "A" .expense stDrift).1.data.entries,
       e.categoryId = "a" ∧ e.type = .income ∧
       ∃ c ∈ (updateCategory "a" "A" .expense stDrift).1.data.categories,
         c.id = "a" ∧ c.type = .expense) := by
  constructor
  · intro st id name ty
    unfold updateCategory
    by_cases h1 : jsTrim name = ""
    · simp [h1]
    · cases hf : (loadFinanceData st).1.categories.find? (fun c => c.id == id) with
      | none => simp [h1, hf]
      | some c =>
        cases hg : (c.type != ty &&
            decide (((loadFinanceData st).1.categories.filter
              (fun x => x.type == c.type)).length ≤ 1)) <;>
          simp [h1, hf, hg]
  · decide

/-- Claim C4: when the id resolves to a category and any entry references it,
`deleteCategory` returns the in-use validation error and both the categories
and the entries of the returned (and persisted) document are unchanged. -/
theorem claim_C4 (st : St) (id : String)
    (h1 : (loadFinanceData st).1.categories.any (fun c => c.id == id) = true)
    (h2 : (loadFinanceData st).1.entries.any (fun e => e.categoryId == id) = true) :
    deleteCategory id st
      = (⟨(loadFinanceData st).1, some "Категория используется в записях."⟩,
         (loadFinanceData st).2) := by
  have hs : ∃ c, (loadFinanceData st).1.categories.find? (fun c => c.id == id) = some c := by
    rw [← Option.isSome_iff_exists]
    exact List.find?_isSome.mpr (List.any_eq_true.mp h1)
  obtain ⟨c, hf⟩ := hs
  unfold deleteCategory
  simp [hf, h2]

/-- Witness for claim C4 on the concrete store `stUse`. -/
theorem claim_C4_witness :
    deleteCategory "a" stUse
      = (⟨(loadFinanceData stUse).1, some "Категория используется в записях."⟩,
         (loadFinanceData stUse).2) :=
  claim_C4 stUse "a" (by decide) (by decide)

/-- Claim C5: `addEntry` silently returns the unchanged document when the
input's `categoryId` resolves to no category; otherwise it prepends a new
entry carrying the freshly generated id and the note defaulted to the empty
string, leaving the categories and the preexisting entries (and their order)
intact. -/
theorem claim_C5 (st : St) (input : EntryInput) :
    ((loadFinanceData st).1.categories.any (fun c => c.id == input.categoryId) = false →
      addEntry input st = ((loadFinanceData st).1, (loadFinanceData st).2)) ∧
    ((loadFinanceData st).1.categories.any (fun c => c.id == input.categoryId) = true →
      (addEntry input st).1.categories = (loadFinanceData st).1.categories ∧
      (addEntry input st).1.entries =
        { id := createId "entry" ((loadFinanceData st).2).gen, type := input.type,
          categoryId := input.categoryId, amount := input.amount,
          date := input.date,
          note := some (input.note.getD "") } :: (loadFinanceData st).1.entries) := by
  constructor <;> intro h <;> simp [addEntry, h]

/-- Witness for claim C5: one unresolved-category no-op and one successful
prepend, both on the default document. -/
theorem claim_C5_witness :
    (addEntry inpGhost ⟨.absent, 0⟩
      = ((loadFinanceData ⟨.absent, 0⟩).1, (loadFinanceData ⟨.absent, 0⟩).2)) ∧
    ((addEntry inpNeg ⟨.absent, 0⟩).1.categories
        = (loadFinanceData ⟨.absent, 0⟩).1.categories ∧
     (addEntry inpNeg ⟨.absent, 0⟩).1.entries =
       { id := createId "entry" ((loadFinanceData ⟨.absent, 0⟩).2).gen,
         type := inpNeg.type, categoryId := inpNeg.categoryId,
         amount := inpNeg.amount, date := inpNeg.date,
         note := some (inpNeg.note.getD "") } :: (loadFinanceData ⟨.absent, 0⟩).1.entries) :=
  ⟨(claim_C5 ⟨.absent, 0⟩ inpGhost).1 (by decide),
   (claim_C5 ⟨.absent, 0⟩ inpNeg).2 (by decide)⟩

/-! ### List lemmas for the in-place update and the delete -/

/-- Applying `setFirst` to a list split at its first match rewrites exactly the
matched element. -/
theorem setFirst_append_cons {α : Type} (p : α → Bool) (f : α → α)
    (l₁ l₂ : List α) (c : α) (h₁ : ∀ x ∈ l₁, p x = false) (hc : p c = true) :
    setFirst p f (l₁ ++ c :: l₂) = l₁ ++ f c :: l₂ := by
  induction l₁ with
  | nil => simp [setFirst, hc]
  | cons a l ih =>
    have ha := h₁ a (List.mem_cons_self a l)
    simp only [List.cons_append, setFirst, ha, Bool.false_eq_true, if_false]
    exact congrArg (a :: ·) (ih (fun x hx => h₁ x (List.mem_cons_of_mem a hx)))

/-- Rewriting the first id-match of a category list to an arbitrary name and
type preserves the presence of each type, provided the rewrite either keeps
the old type or leaves at least one other category of it. -/
theorem any_type_setFirst (l : List Category) (id nm : String) (ty t : CategoryType)
    (c : Category) (hf : l.find? (fun x => x.id == id) = some c)
    (hok : c.type = ty ∨ 2 ≤ (l.filter (fun x => x.type == c.type)).length)
    (h : l.any (fun x => x.type == t) = true) :
    (setFirst (fun x => x.id == id)
      (fun x => { id := x.id, name := nm, type := ty }) l).any
        (fun x => x.type == t) = true := by
  obtain ⟨hpc, as, bs, hsplit, hall⟩ := List.find?_eq_some.mp hf
  subst hsplit
  have hall2 : ∀ x ∈ as, (x.id == id) = false := by
    intro x hx
    simpa using hall x hx
  rw [setFirst_append_cons _ _ _ _ _ hall2 hpc]
  simp only [List.any_append, List.any_cons, Bool.or_eq_true] at h ⊢
  rcases h with h | h | h
  · exact Or.inl h
  · have hct : c.type = t := by simpa using h
    rcases hok with hty | hcnt
    · refine Or.inr (Or.inl ?_)
      show (ty == t) = true
      rw [← hty, hct]
      simp
    · by_cases hty2 : ty = t
      · exact Or.inr (Or.inl (by simp [hty2]))
      · rw [List.filter_append, List.filter_cons_of_pos (by simp)] at hcnt
        simp only [List.length_append, List.length_cons] at hcnt
        have hex : 0 < (as.filter (fun x => x.type == c.type)).length ∨
            0 < (bs.filter (fun x => x.type == c.type)).length := by omega
        rcases hex with hx | hx
        · have hx2 : 0 < as.countP (fun x => x.type == c.type) := by
            rw [List.countP_eq_length_filter]; exact hx
          obtain ⟨x, hxm, hxp⟩ := List.countP_pos_iff.mp hx2
          exact Or.inl (List.any_eq_true.mpr ⟨x, hxm, by rw [← hct]; exact hxp⟩)
        · have hx2 : 0 < bs.countP (fun x => x.type == c.type) := by
            rw [List.countP_eq_length_filter]; exact hx
          obtain ⟨x, hxm, hxp⟩ := List.countP_pos_iff.mp hx2
          exact Or.inr (Or.inr (List.any_eq_true.mpr ⟨x, hxm, by rw [← hct]; exact hxp⟩))
  · exact Or.inr (Or.inr h)

/-- Deleting by id from a category list with pairwise-distinct ids preserves
the presence of each type, provided at least two categories share the deleted
category's type. -/
theorem any_type_filter_ne (l : List Category) (id : String) (c : Category)
    (hf : l.find? (fun x => x.id == id) = some c)
    (hnd : (l.map Category.id).Nodup)
    (hcnt : 2 ≤ (l.filter (fun x => x.type == c.type)).length)
    (t : CategoryType) (h : l.any (fun x => x.type == t) = true) :
    (l.filter (fun x => x.id != id)).any (fun x => x.type == t) = true := by
  obtain ⟨hpc, as, bs, hsplit, hall⟩ := List.find?_eq_some.mp hf
  subst hsplit
  have hcid : c.id = id := by simpa using hpc
  rw [List.map_append, List.map_cons, List.nodup_middle, List.nodup_cons] at hnd
  obtain ⟨hnotin, _⟩ := hnd
  have has2 : ∀ x ∈ as, (x.id != id) = true := by
    intro x hx
    simpa using hall x hx
  have hbs : ∀ x ∈ bs, (x.id != id) = true := by
    intro x hx
    have hne : x.id ≠ c.id := by
      intro he
      exact hnotin (by
        rw [List.mem_append]
        exact Or.inr (List.mem_map.mpr ⟨x, hx, he⟩))
    simpa [hcid] using fun he => hne (hcid ▸ he)
  rw [List.filter_append, List.filter_cons_of_neg (by simp [hcid]),
    List.filter_eq_self.mpr has2, List.filter_eq_self.mpr hbs]
  rw [List.filter_append, List.filter_cons_of_pos (by simp)] at hcnt
  simp only [List.length_append, List.length_cons] at hcnt
  simp only [List.any_append, List.any_cons, Bool.or_eq_true] at h ⊢
  rcases h with h | h | h
  · exact Or.inl h
  · have hct : c.type = t := by simpa using h
    have hex : 0 < (as.filter (fun x => x.type == c.type)).length ∨
        0 < (bs.filter (fun x => x.type == c.type)).length := by omega
    rcases hex with hx | hx
    · have hx2 : 0 < as.countP (fun x => x.type == c.type) := by
        rw [List.countP_eq_length_filter]; exact hx
      obtain ⟨x, hxm, hxp⟩ := List.countP_pos_iff.mp hx2
      exact Or.inl (List.any_eq_true.mpr ⟨x, hxm, by rw [← hct]; exact hxp⟩)
    · have hx2 : 0 < bs.countP (fun x => x.type == c.type) := by
        rw [List.countP_eq_length_filter]; exact hx
      obtain ⟨x, hxm, hxp⟩ := List.countP_pos_iff.mp hx2
      exact Or.inr (List.any_eq_true.mpr ⟨x, hxm, by rw [← hct]; exact hxp⟩)
  · exact Or.inr h

/-- Claim C2 counterexample: on a crafted persisted document whose two income
categories share the id "x" (normalization never deduplicates ids),
`deleteCategory "x"` succeeds with no error and leaves zero income
categories, so the operation can reduce a type's count to zero. -/
theorem claim_C2_cex :
    (deleteCategory "x" stDup).1.error = none ∧
    hasType (loadFinanceData stDup).1 .income = true ∧
    hasType (deleteCategory "x" stDup).1.data .income = false := by
  decide

/-- Claim C2 (amended): `updateCategory` never reduces any type's category
count to zero, and `deleteCategory` never does so provided the document's
category ids are pairwise distinct (it removes every category bearing the
given id, so duplicated ids — the counterexample — can delete two at once);
in both operations, a request that would leave the found category's type
with zero members returns a validation error and leaves the returned and
persisted document equal to the loaded one. -/
theorem claim_C2 (st : St) (id name : String) (ty : CategoryType) :
    (∀ t, hasType (loadFinanceData st).1 t = true →
      hasType (updateCategory id name ty st).1.data t = true) ∧
    (∀ c, (loadFinanceData st).1.categories.find? (fun x => x.id == id) = some c →
      (c.type == ty) = false →
      ((loadFinanceData st).1.categories.filter (fun x => x.type == c.type)).length ≤ 1 →
      (updateCategory id name ty st).1.error.isSome = true ∧
      (updateCategory id name ty st).1.data = (loadFinanceData st).1 ∧
      (updateCategory id name ty st).2 = (loadFinanceData st).2) ∧
    (((loadFinanceData st).1.categories.map Category.id).Nodup →
      ∀ t, hasType (loadFinanceData st).1 t = true →
        hasType (deleteCategory id st).1.data t = true) ∧
    (∀ c, (loadFinanceData st).1.categories.find? (fun x => x.id == id) = some c →
      ((loadFinanceData st).1.categories.filter (fun x => x.type == c.type)).length ≤ 1 →
      (deleteCategory id st).1.error.isSome = true ∧
      (deleteCategory id st).1.data = (loadFinanceData st).1 ∧
      (deleteCategory id st).2 = (loadFinanceData st).2) := by
  refine ⟨?_, ?_, ?_, ?_⟩
  · intro t h
    unfold updateCategory
    by_cases h1 : jsTrim name = ""
    · simpa [h1] using h
    · cases hf : (loadFinanceData st).1.categories.find? (fun c => c.id == id) with
      | none => simpa [h1, hf] using h
      | some c =>
        cases hg : (c.type != ty &&
            decide (((loadFinanceData st).1.categories.filter
              (fun x => x.type == c.type)).length ≤ 1)) with
        | true => simpa [h1, hf, hg] using h
        | false =>
          have hok : c.type = ty ∨
              2 ≤ ((loadFinanceData st).1.categories.filter
                (fun x => x.type == c.type)).length := by
            rcases Bool.and_eq_false_iff.mp hg with hh | hh
            · exact Or.inl (by simpa using hh)
            · have := of_decide_eq_false hh
              exact Or.inr (by omega)
          have hres := any_type_setFirst (loadFinanceData st).1.categories id
            (jsTrim name) ty t c hf hok h
          simpa [h1, hf, hg, hasType] using hres
  · intro c hf hne hcnt
    by_cases h1 : jsTrim name = ""
    · refine ⟨?_, ?_, ?_⟩ <;> simp [updateCategory, h1]
    · have hg : (c.type != ty &&
          decide (((loadFinanceData st).1.categories.filter
            (fun x => x.type == c.type)).length ≤ 1)) = true := by
        simp [bne, hne, hcnt]
      refine ⟨?_, ?_, ?_⟩ <;> simp [updateCategory, h1, hf, hg]
  · intro hnd t h
    unfold deleteCategory
    cases hf : (loadFinanceData st).1.categories.find? (fun c => c.id == id) with
    | none => simpa [hf] using h
    | some c =>
      cases hu : (loadFinanceData st).1.entries.any (fun e => e.categoryId == id) with
      | true => simpa [hf, hu] using h
      | false =>
        by_cases hcnt : ((loadFinanceData st).1.categories.filter
            (fun x => x.type == c.type)).length ≤ 1
        · simpa [hf, hu, hcnt] using h
        · have hcnt2 : 2 ≤ ((loadFinanceData st).1.categories.filter
              (fun x => x.type == c.type)).length := by omega
          have hres := any_type_filter_ne (loadFinanceData st).1.categories id c
            hf hnd hcnt2 t h
          simpa [hf, hu, hcnt, hasType] using hres
  · intro c hf hcnt
    cases hu : (loadFinanceData st).1.entries.any (fun e => e.categoryId == id) with
    | true => refine ⟨?_, ?_, ?_⟩ <;> simp [deleteCategory, hf, hu]
    | false => refine ⟨?_, ?_, ?_⟩ <;> simp [deleteCategory, hf, hu, hcnt]

/-- Witness for claim C2 on the concrete store `stUse` (one category of each
type; deleting or retyping "a" would zero the income type). -/
theorem claim_C2_witness :
    (hasType (updateCategory "a" "Z" .expense stUse).1.data .income = true) ∧
    ((updateCategory "a" "Z" .expense stUse).1.error.isSome = true ∧
     (updateCategory "a" "Z" .expense stUse).1.data = (loadFinanceData stUse).1 ∧
     (updateCategory "a" "Z" .expense stUse).2 = (loadFinanceData stUse).2) ∧
    (hasType (deleteCategory "a" stUse).1.data .income = true) ∧
    ((deleteCategory "a" stUse).1.error.isSome = true ∧
     (deleteCategory "a" stUse).1.data = (loadFinanceData stUse).1 ∧
     (deleteCategory "a" stUse).2 = (loadFinanceData stUse).2) :=
  ⟨(claim_C2 stUse "a" "Z" .expense).1 .income (by decide),
   (claim_C2 stUse "a" "Z" .expense).2.1 ⟨"a", "A", .income⟩ (by decide) (by decide) (by decide),
   (claim_C2 stUse "a" "Z" .expense).2.2.1 (by decide) .income (by decide),
   (claim_C2 stUse "a" "Z" .expense).2.2.2 ⟨"a", "A", .income⟩ (by decide) (by decide)⟩

/-- Claim C6: `updateCategory` errors exactly on empty trimmed name (checked
first), unknown id, or a type change that would leave the current type with
at most one member; on success the first id-match gets the trimmed name and
the given type while every other category and the entries are untouched. -/
theorem claim_C6 (st : St) (id name : String) (ty : CategoryType) :
    (jsTrim name = "" →
      updateCategory id name ty st
        = (⟨(loadFinanceData st).1, some "Введите название категории."⟩,
           (loadFinanceData st).2)) ∧
    (jsTrim name ≠ "" →
      (loadFinanceData st).1.categories.find? (fun x => x.id == id) = none →
      updateCategory id name ty st
        = (⟨(loadFinanceData st).1, some "Категория не найдена."⟩,
           (loadFinanceData st).2)) ∧
    (∀ c, jsTrim name ≠ "" →
      (loadFinanceData st).1.categories.find? (fun x => x.id == id) = some c →
      (c.type == ty) = false →
      ((loadFinanceData st).1.categories.filter (fun x => x.type == c.type)).length ≤ 1 →
      updateCategory id name ty st
        = (⟨(loadFinanceData st).1, some "Нужна хотя бы одна категория каждого типа."⟩,
           (loadFinanceData st).2)) ∧
    (∀ c, jsTrim name ≠ "" →
      (loadFinanceData st).1.categories.find? (fun x => x.id == id) = some c →
      ((c.type == ty) = true ∨
        2 ≤ ((loadFinanceData st).1.categories.filter (fun x => x.type == c.type)).length) →
      (updateCategory id name ty st).1.error = none ∧
      (updateCategory id name ty st).1.data.entries = (loadFinanceData st).1.entries ∧
      ∃ l₁ l₂, (loadFinanceData st).1.categories = l₁ ++ c :: l₂ ∧
        (∀ x ∈ l₁, (x.id == id) = false) ∧
        (updateCategory id name ty st).1.data.categories
          = l₁ ++ { id := c.id, name := jsTrim name, type := ty } :: l₂) := by
  refine ⟨?_, ?_, ?_, ?_⟩
  · intro h1
    simp [updateCategory, h1]
  · intro h1 hf
    simp [updateCategory, h1, hf]
  · intro c h1 hf hne hcnt
    have hg : (c.type != ty &&
        decide (((loadFinanceData st).1.categories.filter
          (fun x => x.type == c.type)).length ≤ 1)) = true := by
      simp [bne, hne, hcnt]
    simp [updateCategory, h1, hf, hg]
  · intro c h1 hf hok
    have hg : (c.type != ty &&
        decide (((loadFinanceData st).1.categories.filter
          (fun x => x.type == c.type)).length ≤ 1)) = false := by
      rcases hok with he | hcnt
      · simp [bne, he]
      · have hn : ¬(((loadFinanceData st).1.categories.filter
            (fun x => x.type == c.type)).length ≤ 1) := by omega
        simp [hn]
    obtain ⟨hpc, as, bs, hsplit, hall⟩ := List.find?_eq_some.mp hf
    have hall2 : ∀ x ∈ as, (x.id == id) = false := fun x hx => by simpa using hall x hx
    refine ⟨?_, ?_, as, bs, hsplit, hall2, ?_⟩
    · simp [updateCategory, h1, hf, hg]
    · simp [updateCategory, h1, hf, hg]
    · simp only [updateCategory]
      simp [h1, hf, hg]
      conv_lhs => rw [hsplit]
      exact setFirst_append_cons _ _ _ _ _ hall2 hpc

/-- Witness for claim C6: all four branches exercised on concrete stores. -/
theorem claim_C6_witness :
    (updateCategory "a" "   " .income stUse
      = (⟨(loadFinanceData stUse).1, some "Введите название категории."⟩,
         (loadFinanceData stUse).2)) ∧
    (updateCategory "zzz" "N" .income stUse
      = (⟨(loadFinanceData stUse).1, some "Категория не найдена."⟩,
         (loadFinanceData stUse).2)) ∧
    (updateCategory "a" "N" .expense stUse
      = (⟨(loadFinanceData stUse).1, some "Нужна хотя бы одна категория каждого типа."⟩,
         (loadFinanceData stUse).2)) ∧
    ((updateCategory "a" "N" .expense stDrift).1.error = none ∧
     (updateCategory "a" "N" .expense stDrift).1.data.entries
        = (loadFinanceData stDrift).1.entries ∧
     ∃ l₁ l₂, (loadFinanceData stDrift).1.categories
          = l₁ ++ { id := "a", name := "A", type := CategoryType.income } :: l₂ ∧
        (∀ x ∈ l₁, (x.id == "a") = false) ∧
        (updateCategory "a" "N" .expense stDrift).1.data.categories
          = l₁ ++ { id := "a", name := jsTrim "N", type := .expense } :: l₂) :=
  ⟨(claim_C6 stUse "a" "   " .income).1 (by decide),
   (claim_C6 stUse "zzz" "N" .income).2.1 (by decide) (by decide),
   (claim_C6 stUse "a" "N" .expense).2.2.1 ⟨"a", "A", .income⟩ (by decide) (by decide)
     (by decide) (by decide),
   (claim_C6 stDrift "a" "N" .expense).2.2.2 ⟨"a", "A", .income⟩ (by decide) (by decide)
     (Or.inr (by decide))⟩

/-- Claim C3 counterexample: `addEntry` performs no amount validation — with
a resolving category id and amount −5 it changes the document instead of
no-opping; and `updateEntry` with a non-positive amount reports "Запись не
найдена." (not the amount error) when the entry id does not resolve. -/
theorem claim_C3_cex :
    JSNum.leZero inpNeg.amount = true ∧
    (addEntry inpNeg ⟨.absent, 0⟩).1 ≠ (loadFinanceData ⟨.absent, 0⟩).1 ∧
    (updateEntry "missing" inpNeg ⟨.absent, 0⟩).1.error = some "Запись не найдена." := by
  decide

/-- Claim C3 (amended): `addEntry` does not validate the amount — whenever
the category resolves it inserts the entry, storing the amount exactly as
given; `updateEntry` rejects a non-finite or non-positive amount with
"Введите сумму больше 0." and leaves the document unchanged, but only after
its entry-exists and category-exists checks pass; on success it overwrites
the first id-match, storing the amount exactly as given. -/
theorem claim_C3 (st : St) (id : String) (input : EntryInput) :
    ((loadFinanceData st).1.categories.any (fun c => c.id == input.categoryId) = true →
      (addEntry input st).1.entries.length = (loadFinanceData st).1.entries.length + 1 ∧
      ((addEntry input st).1.entries.head?).map Entry.amount = some input.amount) ∧
    (∀ e, (loadFinanceData st).1.entries.find? (fun x => x.id == id) = some e →
      (loadFinanceData st).1.categories.any (fun c => c.id == input.categoryId) = true →
      (input.amount.isFinite = false ∨ input.amount.leZero = true) →
      updateEntry id input st
        = (⟨(loadFinanceData st).1, some "Введите сумму больше 0."⟩,
           (loadFinanceData st).2)) ∧
    (∀ e, (loadFinanceData st).1.entries.find? (fun x => x.id == id) = some e →
      (loadFinanceData st).1.categories.any (fun c => c.id == input.categoryId) = true →
      input.amount.isFinite = true → input.amount.leZero = false →
      (updateEntry id input st).1.error = none ∧
      (updateEntry id input st).1.data.categories = (loadFinanceData st).1.categories ∧
      ∃ l₁ l₂, (loadFinanceData st).1.entries = l₁ ++ e :: l₂ ∧
        (∀ x ∈ l₁, (x.id == id) = false) ∧
        (updateEntry id input st).1.data.entries
          = l₁ ++ { id := e.id, type := input.type, categoryId := input.categoryId,
                    amount := input.amount, date := input.date,
                    note := some (input.note.getD "") } :: l₂) := by
  refine ⟨?_, ?_, ?_⟩
  · intro hc
    constructor <;> simp [addEntry, hc]
  · intro e hf hc ha
    have ha2 : (!input.amount.isFinite || input.amount.leZero) = true := by
      rcases ha with h | h <;> simp [h]
    simp [updateEntry, hf, hc, ha2]
  · intro e hf hc ha1 ha2
    have hA : (!input.amount.isFinite || input.amount.leZero) = false := by
      simp [ha1, ha2]
    obtain ⟨hpe, l₁, l₂, hsplit, hall⟩ := List.find?_eq_some.mp hf
    have hall2 : ∀ x ∈ l₁, (x.id == id) = false := fun x hx => by simpa using hall x hx
    refine ⟨?_, ?_, l₁, l₂, hsplit, hall2, ?_⟩
    · simp [updateEntry, hf, hc, hA]
    · simp [updateEntry, hf, hc, hA]
    · simp [updateEntry, hf, hc, hA]
      conv_lhs => rw [hsplit]
      exact setFirst_append_cons _ _ _ _ _ hall2 hpe

/-- Witness for claim C3: the unvalidated add, the amount rejection, and an
exact-storage success, on concrete stores. -/
theorem claim_C3_witness :
    ((addEntry inpNeg ⟨.absent, 0⟩).1.entries.length
        = (loadFinanceData ⟨.absent, 0⟩).1.entries.length + 1 ∧
     ((addEntry inpNeg ⟨.absent, 0⟩).1.entries.head?).map Entry.amount
        = some inpNeg.amount) ∧
    (updateEntry "e1" inpBadA stUse
      = (⟨(loadFinanceData stUse).1, some "Введите сумму больше 0."⟩,
         (loadFinanceData stUse).2)) ∧
    ((updateEntry "e1" inpGoodA stUse).1.error = none ∧
     (updateEntry "e1" inpGoodA stUse).1.data.categories
        = (loadFinanceData stUse).1.categories ∧
     ∃ l₁ l₂, (loadFinanceData stUse).1.entries
          = l₁ ++ { id := "e1", type := CategoryType.income, categoryId := "a",
                    amount := JSNum.fin 5, date := "2024-01-01",
                    note := some "" } :: l₂ ∧
        (∀ x ∈ l₁, (x.id == "e1") = false) ∧
        (updateEntry "e1" inpGoodA stUse).1.data.entries
          = l₁ ++ { id := "e1", type := inpGoodA.type, categoryId := inpGoodA.categoryId,
                    amount := inpGoodA.amount, date := inpGoodA.date,
                    note := some (inpGoodA.note.getD "") } :: l₂) :=
  ⟨(claim_C3 ⟨.absent, 0⟩ "e1" inpNeg).1 (by decide),
   (claim_C3 stUse "e1" inpBadA).2.1
     ⟨"e1", .income, "a", .fin 5, "2024-01-01", some ""⟩ (by decide) (by decide)
     (Or.inr (by decide)),
   (claim_C3 stUse "e1" inpGoodA).2.2
     ⟨"e1", .income, "a", .fin 5, "2024-01-01", some ""⟩ (by decide) (by decide)
     (by decide) (by decide)⟩
